import Mathlib

/-!
Formal model of the timetable CSP engine in `timetable_generator/algorithm.py`,
together with proofs of its scheduling properties.

Modelling conventions:
* Python dicts appearing as engine input (`faculty_data`, `course_data`,
  `constraints_data`) are association lists in key-insertion order; `dict[k]`
  lookups that can raise `KeyError` are modelled with `Option` (a `none`
  result stands for the uncaught exception).
* The third-party `constraint` library's `Problem.getSolutions` is modelled by
  its documented semantics: the list of all total assignments (one value from
  each variable's domain) that satisfy every added constraint.  Our enumeration
  order is the canonical domain-product order; the library's own first-solution
  order differs, so every concrete input used below to reason about the *first*
  solution is chosen to admit at most one solution, making the order
  irrelevant.
* Variable names `f"course_{course_id}"` are represented by the course id
  itself (the code parses the id back out of the name in
  `build_timetable_dict`).
* The `Day -> Period -> label` grid is modelled as a function
  `String -> Nat -> String`; the Python dict is initialised with exactly the
  keys in `DAYS x SCHEDULABLE_PERIODS` and is only ever read and written at
  those keys.
-/

/-- Teaching period, mirroring the `Period` dataclass. -/
structure Period where
  number : Nat
  start_time : String
  end_time : String
  is_break : Bool := false
deriving Repr, DecidableEq

/-- Fixed period catalogue, mirroring the `PERIODS` constant. -/
def PERIODS : List Period :=
  [⟨1, "08:45", "09:45", false⟩,
   ⟨2, "09:45", "10:45", false⟩,
   ⟨3, "11:05", "12:05", false⟩,
   ⟨4, "12:05", "01:05", false⟩,
   ⟨5, "01:55", "02:45", false⟩,
   ⟨6, "03:00", "03:50", false⟩,
   ⟨7, "03:50", "04:40", false⟩]

/-- Fixed break catalogue, mirroring the `BREAKS` constant (after period 2,
after period 4 = lunch, after period 5). -/
def BREAKS : List Period :=
  [⟨0, "10:45", "11:05", true⟩,
   ⟨0, "01:05", "01:55", true⟩,
   ⟨0, "02:45", "03:00", true⟩]

/-- Weekday catalogue, mirroring the `DAYS` constant. -/
def DAYS : List String :=
  ["Monday", "Tuesday", "Wednesday", "Thursday", "Friday"]

/-- Mirrors `SCHEDULABLE_PERIODS = [p.number for p in PERIODS]`. -/
def SCHEDULABLE_PERIODS : List Nat := PERIODS.map (fun p => p.number)

/-- Candidate or assigned placement `(day, start_period, end_period)`. -/
abbrev Slot := String × Nat × Nat

/-- Faculty record as consumed by the engine: the keys the code reads from
`faculty_data[fid]` (`name`, `available_slots`, `is_external`); the records
supplied by the surrounding layer always carry all three keys, so the
`dict.get` defaults for `name` and `available_slots` are unreachable. -/
structure Faculty where
  name : String
  available_slots : List (String × List Nat)
  is_external : Bool
deriving Repr, DecidableEq

/-- Course record as consumed by the engine.  `section_id` is optional
(`course.get("section_id")` yields `None` when absent); `block_size` defaults
to 1 in the code's `course.get("block_size", 1)` and is always present in the
supplied records. -/
structure Course where
  code : String
  name : String
  type : String
  required_faculty_ids : List Nat
  block_size : Nat
  section_id : Option String := none
deriving Repr, DecidableEq

/-- Preference record as consumed by `add_preferred_days_constraint`:
`constraint.get("course_id")` (possibly absent) and
`constraint.get("preferred_days", [])`. -/
structure PrefConstraint where
  course_id : Option Nat
  preferred_days : List String
deriving Repr, DecidableEq

abbrev FacultyMap := List (Nat × Faculty)

abbrev CourseMap := List (Nat × Course)

abbrev ConstraintsMap := List (Nat × PrefConstraint)

/-- Python `m[k]` on an id-keyed dict: `some` value or `none` (KeyError). -/
def dictGet {α : Type} (m : List (Nat × α)) (k : Nat) : Option α :=
  (m.find? (fun e => e.1 == k)).map (fun e => e.2)

/-- Python `m.get(day, [])` on a day-keyed dict of period lists. -/
def lookupD (m : List (String × List Nat)) (k : String) (d : List Nat) : List Nat :=
  ((m.find? (fun e => e.1 == k)).map (fun e => e.2)).getD d

/-- Lab candidate slots, mirroring
`[(day, p, p+1) for day in DAYS for p in SCHEDULABLE_PERIODS if p+1 <= 7]`
in `TimetableCSP.add_variables`.  Note that it does NOT exclude the blocks
(2,3) and (5,6) that straddle a break. -/
def lab_domain : List Slot :=
  DAYS.flatMap (fun day =>
    (SCHEDULABLE_PERIODS.filter (fun p => p + 1 ≤ 7)).map (fun p => (day, p, p + 1)))

/-- Theory candidate slots, mirroring
`[(day, p, p) for day in DAYS for p in SCHEDULABLE_PERIODS]`. -/
def theory_domain : List Slot :=
  DAYS.flatMap (fun day => SCHEDULABLE_PERIODS.map (fun p => (day, p, p)))

/-- Domain chosen per course in `add_variables`: labs (`block_size == 2`) get
two-period blocks, everything else single periods. -/
def slotsFor (course : Course) : List Slot :=
  if course.block_size = 2 then lab_domain else theory_domain

/-- Mirrors `TimetableCSP.add_variables`: one variable per course id, in input
order, with the block-size-dependent domain.  The `self.course_data[course_id]`
lookup can raise `KeyError`, hence `Option`.  (The function's initial generic
`domain` list in the code is dead and omitted.)  Each entry records
`(course_id, course record, domain)`. -/
def add_variables (course_data : CourseMap) : List Nat → Option (List (Nat × Course × List Slot))
  | [] => some []
  | cid :: rest =>
    match dictGet course_data cid, add_variables course_data rest with
    | some c, some vs => some ((cid, c, slotsFor c) :: vs)
    | _, _ => none

/-- Mirrors the `faculty_available` closure in
`add_faculty_availability_constraint`: every required faculty id must resolve
in `faculty_data` and be available on the slot's day for every period of the
block. -/
def faculty_available (faculty_data : FacultyMap) (fac_ids : List Nat) (slot : Slot) : Bool :=
  fac_ids.all (fun fac_id =>
    match dictGet faculty_data fac_id with
    | none => false
    | some fac =>
      let available_on_day := lookupD fac.available_slots slot.1 []
      (List.range' slot.2.1 (slot.2.2 + 1 - slot.2.1)).all
        (fun period => decide (period ∈ available_on_day)))

/-- Mirrors the `no_clash` closure in `add_no_clash_constraint`: compatible iff
different days, or same day with neither start inside the other's inclusive
range. -/
def no_clash (slot1 slot2 : Slot) : Bool :=
  if slot1.1 != slot2.1 then true
  else if (slot1.2.1 ≤ slot2.2.1 ∧ slot2.2.1 ≤ slot1.2.2) ∨
          (slot2.2.1 ≤ slot1.2.1 ∧ slot1.2.1 ≤ slot2.2.2) then false
  else true

/-- Mirrors `set(ids1) & set(ids2)` being non-empty in
`add_no_clash_constraint`. -/
def sharesFaculty (c1 c2 : Course) : Bool :=
  c1.required_faculty_ids.any (fun i => decide (i ∈ c2.required_faculty_ids))

/-- The `no_clash` binary constraints over an assignment: for every pair
`i < j` in variable order, the constraint applies only when the two courses
share a required faculty id (mirrors the double loop in
`add_no_clash_constraint`). -/
def no_clash_pairs_ok : List (Nat × Course × Slot) → Bool
  | [] => true
  | x :: rest =>
    (rest.all (fun y => if sharesFaculty x.2.1 y.2.1 then no_clash x.2.2 y.2.2 else true))
      && no_clash_pairs_ok rest

/-- All constraints registered on the problem (the unary availability
constraints plus the binary no-clash constraints; the preferred-days step adds
nothing to the problem) hold of an assignment. -/
def assignment_ok (faculty_data : FacultyMap) (a : List (Nat × Course × Slot)) : Bool :=
  (a.all (fun x => faculty_available faculty_data x.2.1.required_faculty_ids x.2.2))
    && no_clash_pairs_ok a

/-- Every total assignment: one domain value per variable, in variable order. -/
def allAssignments : List (Nat × Course × List Slot) → List (List (Nat × Course × Slot))
  | [] => [[]]
  | v :: rest =>
    v.2.2.flatMap (fun s => (allAssignments rest).map (fun a => (v.1, v.2.1, s) :: a))

/-- Model of `Problem.getSolutions` for the problem built by the engine: all
total assignments satisfying every constraint, each reported as a
`variable -> slot` map (association list in variable order). -/
def getSolutions (faculty_data : FacultyMap) (vars : List (Nat × Course × List Slot)) :
    List (List (Nat × Slot)) :=
  ((allAssignments vars).filter (fun a => assignment_ok faculty_data a)).map
    (fun a => a.map (fun x => (x.1, x.2.2)))

/-- Mirrors `TimetableCSP.solve` + `get_solution`: take the first solution if
one exists. -/
def solveCSP (faculty_data : FacultyMap) (vars : List (Nat × Course × List Slot)) :
    Option (List (Nat × Slot)) :=
  (getSolutions faculty_data vars).head?

/-- Variable construction followed by solution enumeration (`none` when
`add_variables` raises). -/
def solveAll (faculty_data : FacultyMap) (course_data : CourseMap) (courses : List Nat) :
    Option (List (List (Nat × Slot))) :=
  (add_variables course_data courses).map (getSolutions faculty_data)

/-- Mirrors `TimetableCSP.add_preferred_days_constraint`: the recorded
`preferred_constraints` entries (a predicate per targeted variable).  The
method only stores these on the solver object; nothing reads them. -/
def add_preferred_days_constraint (course_vars : List Nat)
    (constraints_data : ConstraintsMap) : List (Nat × (Slot → Bool)) :=
  constraints_data.foldl (fun acc e =>
    match e.2.course_id with
    | none => acc
    | some cid =>
      if e.2.preferred_days.isEmpty || !(course_vars.contains cid) then acc
      else acc ++ [(cid, fun slot => e.2.preferred_days.contains slot.1)]) []

/-- Day-by-period display grid. -/
abbrev Grid := String → Nat → String

/-- Grid of empty strings, mirroring
`{day: {p: "" for p in SCHEDULABLE_PERIODS} for day in DAYS}`. -/
def emptyGrid : Grid := fun _ _ => ""

/-- Python `timetable[day][period] = v`. -/
def gridSet (g : Grid) (day : String) (p : Nat) (v : String) : Grid :=
  fun d q => if d = day ∧ q = p then v else g d q

/-- The cell writes done for one bound variable in `build_timetable_dict`:
`for period in range(start, end+1)` when `end > start`, else the single
`start` cell. -/
def writeBlock (g : Grid) (day : String) (s e : Nat) (v : String) : Grid :=
  if e > s then
    (List.range' s (e + 1 - s)).foldl (fun g' p => gridSet g' day p v) g
  else
    gridSet g day s v

/-- Faculty display names for a course, mirroring
`[faculty_data[fid].get("name", ...) for fid in faculty_ids]` (the `fid`
lookup can raise `KeyError`; the `name` key is always present). -/
def facultyNames (faculty_data : FacultyMap) : List Nat → Option (List String)
  | [] => some []
  | fid :: rest =>
    match dictGet faculty_data fid, facultyNames faculty_data rest with
    | some fac, some names => some (fac.name :: names)
    | _, _ => none

/-- Cell label for a course, mirroring
`f"{course['code']} | {' & '.join(faculty_names)}"` (with the `course_data`
lookup's KeyError as `none`). -/
def labelOf (course_data : CourseMap) (faculty_data : FacultyMap) (cid : Nat) : Option String :=
  (dictGet course_data cid).bind (fun course =>
    (facultyNames faculty_data course.required_faculty_ids).map (fun names =>
      course.code ++ " | " ++ String.intercalate (" & ") names))

/-- The loop body of `build_timetable_dict` over the solution items, threading
the grid. -/
def build_go (course_data : CourseMap) (faculty_data : FacultyMap) (g : Grid) :
    List (Nat × Slot) → Option Grid
  | [] => some g
  | item :: rest =>
    match labelOf course_data faculty_data item.1 with
    | none => none
    | some schedule_str =>
      build_go course_data faculty_data
        (writeBlock g item.2.1 item.2.2.1 item.2.2.2 schedule_str) rest

/-- Mirrors `build_timetable_dict`: start from the all-empty grid and write
each bound variable's label over its assigned block. -/
def build_timetable_dict (solution : List (Nat × Slot)) (course_data : CourseMap)
    (faculty_data : FacultyMap) : Option Grid :=
  build_go course_data faculty_data emptyGrid solution

/-- Mirrors the `courses_to_schedule` comprehension in `generate_timetable`:
the filter condition is `course.get("section_id") == section_name or True`,
i.e. always true. -/
def coursesToSchedule (course_data : CourseMap) (section_name : String) : List Nat :=
  (course_data.filter (fun e =>
    decide (e.2.section_id = some section_name) || true)).map (fun e => e.1)

/-- Mirrors `generate_timetable`: extract the courses, build variables, add
constraints (the preferred-days step only records its predicates), solve, and
materialise.  The outer `Option` models an uncaught exception escaping the
call; the returned triple is `(success, grid, message)` (the pandas DataFrame
is a presentation of the grid dict and is not modelled). -/
def generate_timetable (faculty_data : FacultyMap) (course_data : CourseMap)
    (constraints_data : ConstraintsMap) (section_name : String) :
    Option (Bool × Option Grid × String) :=
  let courses_to_schedule := coursesToSchedule course_data section_name
  if courses_to_schedule.isEmpty then
    some (false, none, "No courses found for section.")
  else
    match add_variables course_data courses_to_schedule with
    | none => none
    | some vars =>
      let _preferred := add_preferred_days_constraint courses_to_schedule constraints_data
      match solveCSP faculty_data vars with
      | none =>
        some (false, none,
          "No feasible solution found. Check faculty availability and course requirements.")
      | some solution =>
        match build_timetable_dict solution course_data faculty_data with
        | none => none
        | some grid => some (true, some grid, "Timetable generated successfully!")

/-!
Cell-coverage notions used to state the materializer facts.
-/

/-- A slot covers a grid cell when the cell's day is the slot's day and the
period lies in the inclusive assigned range. -/
def covers (slot : Slot) (day : String) (p : Nat) : Prop :=
  slot.1 = day ∧ slot.2.1 ≤ p ∧ p ≤ slot.2.2

instance (slot : Slot) (day : String) (p : Nat) : Decidable (covers slot day p) := by
  unfold covers
  infer_instance

/-- Two slots that occupy no common cell: different days or strictly separated
inclusive ranges. -/
def slotsApart (s1 s2 : Slot) : Prop :=
  s1.1 ≠ s2.1 ∨ s1.2.2 < s2.2.1 ∨ s2.2.2 < s1.2.1

instance (s1 s2 : Slot) : Decidable (slotsApart s1 s2) := by
  unfold slotsApart
  infer_instance

/-!
Concrete engine inputs used to evaluate specific behaviours.
-/

/-- Grid search for a full cell label. -/
def gridHasLabel (g : Grid) (s : String) : Bool :=
  DAYS.any (fun d => SCHEDULABLE_PERIODS.any (fun p => g d p == s))

/-- Every cell of the grid is one of the given strings. -/
def gridCellsAmong (g : Grid) (vs : List String) : Bool :=
  DAYS.all (fun d => SCHEDULABLE_PERIODS.all (fun p => vs.contains (g d p)))

/-- Faculty for the break-straddling lab scenario: both required faculty are
available exactly at periods 2 and 3 on Monday. -/
def fdC1 : FacultyMap :=
  [(1, ⟨"Dr. G", [("Monday", [2, 3])], false⟩),
   (2, ⟨"Ms. A", [("Monday", [2, 3])], false⟩)]

/-- One LAB course requiring both faculty of `fdC1`. -/
def cdC1 : CourseMap :=
  [(1, ⟨"IT301", "ML Lab", "LAB", [1, 2], 2, none⟩)]

/-- One faculty with full availability on Monday. -/
def fdC2 : FacultyMap :=
  [(1, ⟨"Dr. G", [("Monday", [1, 2, 3, 4, 5, 6, 7])], false⟩)]

/-- One THEORY course referencing faculty id 99, absent from `fdC2`. -/
def cdC2 : CourseMap :=
  [(1, ⟨"IT302", "OS", "THEORY", [99], 1, none⟩)]

/-- One faculty free only at periods 1 and 3 of Monday. -/
def fdC3 : FacultyMap := [(1, ⟨"F", [("Monday", [1, 3])], false⟩)]

/-- First of two THEORY courses sharing the single faculty of `fdC3`. -/
def crsC3a : Course := ⟨"C1", "A", "THEORY", [1], 1, none⟩

/-- Second of two THEORY courses sharing the single faculty of `fdC3`. -/
def crsC3b : Course := ⟨"C2", "B", "THEORY", [1], 1, none⟩

/-- Course map of the two shared-faculty courses. -/
def cdC3 : CourseMap := [(1, crsC3a), (2, crsC3b)]

/-- The variables `add_variables` builds for `cdC3`. -/
def varsC3 : List (Nat × Course × List Slot) :=
  [(1, crsC3a, slotsFor crsC3a), (2, crsC3b, slotsFor crsC3b)]

/-- One solution of the `fdC3`/`cdC3` problem. -/
def solC3 : List (Nat × Slot) := [(1, ("Monday", 1, 1)), (2, ("Monday", 3, 3))]

/-- One faculty free only at period 4 of Monday. -/
def fdC4 : FacultyMap := [(1, ⟨"F", [("Monday", [4])], false⟩)]

/-- One THEORY course requiring the faculty of `fdC4`. -/
def crsC4 : Course := ⟨"C4", "A", "THEORY", [1], 1, none⟩

/-- Course map containing only `crsC4`. -/
def cdC4 : CourseMap := [(1, crsC4)]

/-- The variables `add_variables` builds for `cdC4`. -/
def varsC4 : List (Nat × Course × List Slot) := [(1, crsC4, slotsFor crsC4)]

/-- The unique solution of the `fdC4`/`cdC4` problem. -/
def solC4 : List (Nat × Slot) := [(1, ("Monday", 4, 4))]

/-- A small schedulable input (determinism witness). -/
def fdC5 : FacultyMap := [(1, ⟨"F", [("Monday", [1])], false⟩)]

/-- Course map for the determinism witness. -/
def cdC5 : CourseMap := [(1, ⟨"C5", "A", "THEORY", [1], 1, none⟩)]

/-- Malformed input: the course below references faculty id 7, absent here. -/
def fdC6bad : FacultyMap := [(1, ⟨"Dr. X", [("Monday", [1])], false⟩)]

/-- Course referencing the unknown faculty id 7. -/
def cdC6bad : CourseMap := [(1, ⟨"CS1", "A", "THEORY", [7], 1, none⟩)]

/-- Well-formed but infeasible input: the known faculty has an empty
availability map. -/
def fdC6inf : FacultyMap := [(1, ⟨"Dr. X", [], false⟩)]

/-- Course requiring the never-available faculty of `fdC6inf`. -/
def cdC6inf : CourseMap := [(1, ⟨"CS1", "A", "THEORY", [1], 1, none⟩)]

/-- One faculty for the materializer scenarios. -/
def fdC7 : FacultyMap := [(1, ⟨"Fw", [("Monday", [2, 3])], false⟩)]

/-- One LAB course taught by the faculty of `fdC7`. -/
def crsC7 : Course := ⟨"CW", "L", "LAB", [1], 2, none⟩

/-- Course map containing only `crsC7`. -/
def cdC7 : CourseMap := [(1, crsC7)]

/-- A complete one-variable solution for the materializer. -/
def solC7w : List (Nat × Slot) := [(1, ("Monday", 2, 3))]

/-- The grid the materializer produces for `solC7w`. -/
def gC7 : Grid := writeBlock emptyGrid ("Monday") 2 3 ("CW | Fw")

/-- A two-variable solution whose slots coincide (overwrite scenario),
with two distinct courses and faculty. -/
def fdC7o : FacultyMap :=
  [(1, ⟨"Fa", [("Monday", [1])], false⟩), (2, ⟨"Fb", [("Monday", [1])], false⟩)]

/-- First overwrite-scenario course. -/
def crsC7a : Course := ⟨"CA", "A", "THEORY", [1], 1, none⟩

/-- Second overwrite-scenario course. -/
def crsC7b : Course := ⟨"CB", "B", "THEORY", [2], 1, none⟩

/-- Course map of the two overwrite-scenario courses. -/
def cdC7o : CourseMap := [(1, crsC7a), (2, crsC7b)]

/-- Both courses bound to the same slot (a complete solution: the hard
constraints never compare them since their faculty sets are disjoint). -/
def solC7o : List (Nat × Slot) := [(1, ("Monday", 1, 1)), (2, ("Monday", 1, 1))]

/-- Faculty for the disjoint-faculty collision scenario: each of two faculty
is free only at period 1 of Monday. -/
def fdC10 : FacultyMap :=
  [(1, ⟨"Fa", [("Monday", [1])], false⟩), (2, ⟨"Fb", [("Monday", [1])], false⟩)]

/-- Two THEORY courses with disjoint required-faculty sets. -/
def cdC10 : CourseMap :=
  [(1, ⟨"CSA", "A", "THEORY", [1], 1, none⟩), (2, ⟨"CSB", "B", "THEORY", [2], 1, none⟩)]

/-!
Helper lemmas about the solver model.
-/

/-- Every slot in the lab domain has `start ≤ end`. -/
lemma lab_domain_valid : ∀ slot ∈ lab_domain, slot.2.1 ≤ slot.2.2 := by decide

/-- Every slot in the theory domain has `start ≤ end`. -/
lemma theory_domain_valid : ∀ slot ∈ theory_domain, slot.2.1 ≤ slot.2.2 := by decide

/-- Every candidate slot a course can be assigned has `start ≤ end`. -/
lemma slotsFor_valid {c : Course} {slot : Slot} (h : slot ∈ slotsFor c) :
    slot.2.1 ≤ slot.2.2 := by
  unfold slotsFor at h
  split at h
  · exact lab_domain_valid slot h
  · exact theory_domain_valid slot h

/-- Each element of a total assignment takes its slot from the matching
variable's domain. -/
lemma mem_allAssignments_mem {vars : List (Nat × Course × List Slot)}
    {a : List (Nat × Course × Slot)} (ha : a ∈ allAssignments vars)
    {x : Nat × Course × Slot} (hx : x ∈ a) :
    ∃ dom, (x.1, x.2.1, dom) ∈ vars ∧ x.2.2 ∈ dom := by
  induction vars generalizing a with
  | nil =>
    simp only [allAssignments, List.mem_singleton] at ha
    subst ha
    simp at hx
  | cons v rest ih =>
    simp only [allAssignments, List.mem_flatMap, List.mem_map] at ha
    obtain ⟨s, hs, a', ha', rfl⟩ := ha
    rcases List.mem_cons.mp hx with rfl | hx'
    · exact ⟨v.2.2, List.mem_cons_self _ _, hs⟩
    · obtain ⟨dom, hdom, hmem⟩ := ih ha' hx'
      exact ⟨dom, List.mem_cons_of_mem _ hdom, hmem⟩

/-- Variables built by `add_variables` carry the course record found in the
course map and its block-size-dependent domain. -/
lemma add_variables_mem {cd : CourseMap} {courses : List Nat}
    {vars : List (Nat × Course × List Slot)}
    (h : add_variables cd courses = some vars)
    {v : Nat × Course × List Slot} (hv : v ∈ vars) :
    dictGet cd v.1 = some v.2.1 ∧ v.2.2 = slotsFor v.2.1 := by
  induction courses generalizing vars with
  | nil =>
    simp only [add_variables, Option.some.injEq] at h
    subst h
    simp at hv
  | cons cid rest ih =>
    unfold add_variables at h
    cases hc : dictGet cd cid with
    | none => rw [hc] at h; exact absurd h (by simp)
    | some c =>
      cases hr : add_variables cd rest with
      | none => rw [hc, hr] at h; exact absurd h (by simp)
      | some vs =>
        rw [hc, hr] at h
        simp only [Option.some.injEq] at h
        subst h
        rcases List.mem_cons.mp hv with rfl | hv'
        · exact ⟨hc, rfl⟩
        · exact ih hr hv'

/-- Unpack membership in the solution list: some satisfying total assignment
projects to the solution. -/
lemma getSolutions_mem {fd : FacultyMap} {vars : List (Nat × Course × List Slot)}
    {sol : List (Nat × Slot)} (h : sol ∈ getSolutions fd vars) :
    ∃ a, a ∈ allAssignments vars ∧ assignment_ok fd a = true ∧
      sol = a.map (fun x => (x.1, x.2.2)) := by
  unfold getSolutions at h
  rw [List.mem_map] at h
  obtain ⟨a, ha, rfl⟩ := h
  rw [List.mem_filter] at ha
  exact ⟨a, ha.1, ha.2, rfl⟩

/-- A satisfying assignment passes every unary availability constraint. -/
lemma assignment_ok_avail {fd : FacultyMap} {a : List (Nat × Course × Slot)}
    (h : assignment_ok fd a = true) {x : Nat × Course × Slot} (hx : x ∈ a) :
    faculty_available fd x.2.1.required_faculty_ids x.2.2 = true := by
  unfold assignment_ok at h
  rw [Bool.and_eq_true] at h
  exact List.all_eq_true.mp h.1 x hx

/-- Shared-faculty detection is symmetric. -/
lemma sharesFaculty_symm {c1 c2 : Course} (h : sharesFaculty c1 c2 = true) :
    sharesFaculty c2 c1 = true := by
  simp only [sharesFaculty, List.any_eq_true, decide_eq_true_eq] at h ⊢
  obtain ⟨i, h1, h2⟩ := h
  exact ⟨i, h2, h1⟩

/-- A satisfying assignment passes the no-clash constraint between any two of
its distinct entries that share a required faculty id (in one of the two
orientations the solver checks). -/
lemma no_clash_pairs_mem {a : List (Nat × Course × Slot)}
    (h : no_clash_pairs_ok a = true) {x y : Nat × Course × Slot}
    (hx : x ∈ a) (hy : y ∈ a) (hxy : x.1 ≠ y.1)
    (hsh : sharesFaculty x.2.1 y.2.1 = true) :
    no_clash x.2.2 y.2.2 = true ∨ no_clash y.2.2 x.2.2 = true := by
  induction a with
  | nil => simp at hx
  | cons z rest ih =>
    unfold no_clash_pairs_ok at h
    rw [Bool.and_eq_true] at h
    rcases List.mem_cons.mp hx with rfl | hx' <;> rcases List.mem_cons.mp hy with rfl | hy'
    · exact absurd rfl hxy
    · left
      have hall := List.all_eq_true.mp h.1 y hy'
      rw [if_pos hsh] at hall
      exact hall
    · right
      have hall := List.all_eq_true.mp h.1 x hx'
      rw [if_pos (sharesFaculty_symm hsh)] at hall
      exact hall
    · exact ih h.2 hx' hy'

/-- Interpretation of a passing `no_clash` check for well-formed slots:
different days, or inclusive ranges strictly apart. -/
lemma no_clash_spec {s1 s2 : Slot} (h : no_clash s1 s2 = true) :
    s1.1 ≠ s2.1 ∨ s1.2.2 < s2.2.1 ∨ s2.2.2 < s1.2.1 := by
  by_cases hd : s1.1 = s2.1
  · right
    unfold no_clash at h
    rw [hd] at h
    simp only [bne_self_eq_false, Bool.false_eq_true, if_false] at h
    split at h
    · exact absurd h (by simp)
    · rename_i hcond
      push_neg at hcond
      omega
  · left
    exact hd

/-- Interpretation of a passing availability check: every required faculty id
resolves and covers every period of the block on the slot's day. -/
lemma faculty_available_spec {fd : FacultyMap} {ids : List Nat} {slot : Slot}
    (h : faculty_available fd ids slot = true)
    {fid : Nat} (hfid : fid ∈ ids) {p : Nat}
    (hp1 : slot.2.1 ≤ p) (hp2 : p ≤ slot.2.2) :
    (dictGet fd fid).map
      (fun fac => decide (p ∈ lookupD fac.available_slots slot.1 [])) = some true := by
  unfold faculty_available at h
  have hone := List.all_eq_true.mp h fid hfid
  cases hg : dictGet fd fid with
  | none => rw [hg] at hone; exact absurd hone (by simp)
  | some fac =>
    rw [hg] at hone
    simp only at hone
    have hp : p ∈ List.range' slot.2.1 (slot.2.2 + 1 - slot.2.1) := by
      rw [List.mem_range'_1]
      omega
    have := List.all_eq_true.mp hone p hp
    simp only [Option.map_some']
    rw [this]

/-!
Materializer lemmas.
-/

/-- Separated slots cannot cover the same cell. -/
lemma slotsApart_not_covers {s1 s2 : Slot} (h : slotsApart s1 s2)
    {day : String} {p : Nat} (h1 : covers s1 day p) : ¬ covers s2 day p := by
  unfold slotsApart at h
  unfold covers at h1 ⊢
  rintro ⟨hd2, hp2a, hp2b⟩
  obtain ⟨hd1, hp1a, hp1b⟩ := h1
  rcases h with h | h | h
  · exact h (hd1.trans hd2.symm)
  · omega
  · omega

/-- Evaluating a run of single-cell writes. -/
lemma foldl_gridSet_apply (l : List Nat) (g : Grid) (day v d : String) (q : Nat) :
    (l.foldl (fun g' p => gridSet g' day p v) g) d q =
      if d = day ∧ q ∈ l then v else g d q := by
  induction l generalizing g with
  | nil => simp
  | cons p l ih =>
    simp only [List.foldl_cons]
    rw [ih]
    by_cases hd : d = day
    · by_cases hq : q ∈ l
      · simp [hd, hq]
      · by_cases hp : q = p
        · simp [gridSet, hd, hq, hp]
        · simp [gridSet, hd, hq, hp]
    · simp [gridSet, hd]

/-- Evaluating the block write of one bound variable (for a well-formed block
with `start ≤ end`): exactly the covered cells receive the label. -/
lemma writeBlock_apply (g : Grid) (day : String) (s e : Nat) (v : String)
    (hse : s ≤ e) (d : String) (q : Nat) :
    writeBlock g day s e v d q = if d = day ∧ s ≤ q ∧ q ≤ e then v else g d q := by
  unfold writeBlock
  by_cases hgt : e > s
  · rw [if_pos hgt, foldl_gridSet_apply]
    have hiff : (q ∈ List.range' s (e + 1 - s)) ↔ (s ≤ q ∧ q ≤ e) := by
      rw [List.mem_range'_1]
      omega
    by_cases hd : d = day
    · simp [hd, hiff]
    · simp [hd]
  · rw [if_neg hgt]
    have he : e = s := by omega
    subst he
    unfold gridSet
    by_cases hd : d = day
    · by_cases hq : q = e
      · simp [hd, hq]
      · have : ¬ (e ≤ q ∧ q ≤ e) := by omega
        simp [hd, hq, this]
    · simp [hd]

/-- Cells covered by no processed entry keep their previous contents. -/
lemma build_go_unchanged {cd : CourseMap} {fd : FacultyMap} {l : List (Nat × Slot)}
    {g g' : Grid} (hb : build_go cd fd g l = some g')
    (hv : ∀ x ∈ l, x.2.2.1 ≤ x.2.2.2)
    {day : String} {p : Nat} (hnc : ∀ x ∈ l, ¬ covers x.2 day p) :
    g' day p = g day p := by
  induction l generalizing g with
  | nil =>
    simp only [build_go, Option.some.injEq] at hb
    rw [hb]
  | cons item rest ih =>
    unfold build_go at hb
    cases hl : labelOf cd fd item.1 with
    | none => rw [hl] at hb; exact absurd hb (by simp)
    | some str =>
      rw [hl] at hb
      have hrest := ih hb (fun x hx => hv x (List.mem_cons_of_mem _ hx))
        (fun x hx => hnc x (List.mem_cons_of_mem _ hx))
      rw [hrest, writeBlock_apply _ _ _ _ _ (hv item (List.mem_cons_self _ _))]
      rw [if_neg]
      intro hcond
      exact hnc item (List.mem_cons_self _ _) ⟨hcond.1.symm, hcond.2.1, hcond.2.2⟩

/-- Every covered cell of the final grid holds the covering entry's label,
provided the entries' slots are pairwise separated and well formed. -/
lemma build_go_covered {cd : CourseMap} {fd : FacultyMap} {l : List (Nat × Slot)}
    {g g' : Grid} (hb : build_go cd fd g l = some g')
    (hv : ∀ x ∈ l, x.2.2.1 ≤ x.2.2.2)
    (hdisj : l.Pairwise (fun x y => slotsApart x.2 y.2))
    {cid : Nat} {slot : Slot} (hmem : (cid, slot) ∈ l)
    {p : Nat} (hp1 : slot.2.1 ≤ p) (hp2 : p ≤ slot.2.2) :
    some (g' slot.1 p) = labelOf cd fd cid := by
  induction l generalizing g with
  | nil => simp at hmem
  | cons item rest ih =>
    unfold build_go at hb
    cases hl : labelOf cd fd item.1 with
    | none => rw [hl] at hb; exact absurd hb (by simp)
    | some str =>
      rw [hl] at hb
      rcases List.mem_cons.mp hmem with heq | hmem'
      · have hcid : cid = item.1 := by rw [← heq]
        have hslot : slot = item.2 := by rw [← heq]
        subst hcid
        subst hslot
        have hnc : ∀ x ∈ rest, ¬ covers x.2 item.2.1 p := by
          intro x hx
          have hap := (List.pairwise_cons.mp hdisj).1 x hx
          exact slotsApart_not_covers hap ⟨rfl, hp1, hp2⟩
        have hunch := build_go_unchanged hb
          (fun x hx => hv x (List.mem_cons_of_mem _ hx)) hnc
        rw [hunch, writeBlock_apply _ _ _ _ _ (hv item (List.mem_cons_self _ _))]
        rw [if_pos ⟨rfl, hp1, hp2⟩, hl]
      · exact ih hb (fun x hx => hv x (List.mem_cons_of_mem _ hx))
          (List.pairwise_cons.mp hdisj).2 hmem'
/-!
Claim theorems.
-/

/-- C3: for every Solution the solver returns and every pair of bound
variables whose courses' required-faculty sets intersect, the assigned slots
do not overlap — they are on different days, or their inclusive period ranges
are strictly apart (touching endpoints are rejected as a clash). -/
theorem returned_solutions_no_clash
    (fd : FacultyMap) (cd : CourseMap) (courses : List Nat)
    (vars : List (Nat × Course × List Slot)) (sol : List (Nat × Slot))
    (hvars : add_variables cd courses = some vars)
    (hsol : sol ∈ getSolutions fd vars)
    (cid1 cid2 : Nat) (slot1 slot2 : Slot)
    (h1 : (cid1, slot1) ∈ sol) (h2 : (cid2, slot2) ∈ sol) (hne : cid1 ≠ cid2)
    (c1 c2 : Course) (hc1 : dictGet cd cid1 = some c1) (hc2 : dictGet cd cid2 = some c2)
    (fid : Nat) (hf1 : fid ∈ c1.required_faculty_ids) (hf2 : fid ∈ c2.required_faculty_ids) :
    slot1.1 ≠ slot2.1 ∨ slot1.2.2 < slot2.2.1 ∨ slot2.2.2 < slot1.2.1 := by
  obtain ⟨a, haA, haOK, rfl⟩ := getSolutions_mem hsol
  rw [List.mem_map] at h1 h2
  obtain ⟨x, hxa, hxeq⟩ := h1
  obtain ⟨y, hya, hyeq⟩ := h2
  obtain ⟨hx1, hx2⟩ := Prod.mk.injEq .. ▸ hxeq
  obtain ⟨hy1, hy2⟩ := Prod.mk.injEq .. ▸ hyeq
  obtain ⟨domx, hdomx, _⟩ := mem_allAssignments_mem haA hxa
  obtain ⟨domy, hdomy, _⟩ := mem_allAssignments_mem haA hya
  have hcx : dictGet cd x.1 = some x.2.1 := (add_variables_mem hvars hdomx).1
  have hcy : dictGet cd y.1 = some y.2.1 := (add_variables_mem hvars hdomy).1
  rw [hx1, hc1] at hcx
  rw [hy1, hc2] at hcy
  have hxc : x.2.1 = c1 := (Option.some.injEq ..).mp hcx.symm
  have hyc : y.2.1 = c2 := (Option.some.injEq ..).mp hcy.symm
  have hxyne : x.1 ≠ y.1 := by rw [hx1, hy1]; exact hne
  have hxny : x ≠ y := fun hcontra => hxyne (congrArg Prod.fst hcontra)
  have hsh : sharesFaculty x.2.1 y.2.1 = true := by
    rw [hxc, hyc]
    simp only [sharesFaculty, List.any_eq_true, decide_eq_true_eq]
    exact ⟨fid, hf1, hf2⟩
  unfold assignment_ok at haOK
  rw [Bool.and_eq_true] at haOK
  rcases no_clash_pairs_mem haOK.2 hxa hya hxyne hsh with hnc | hnc
  · rw [hx2, hy2] at hnc
    exact no_clash_spec hnc
  · rw [hx2, hy2] at hnc
    rcases no_clash_spec hnc with hd | hr | hr
    · exact Or.inl (Ne.symm hd)
    · exact Or.inr (Or.inr hr)
    · exact Or.inr (Or.inl hr)

/-- C4: for every Solution the solver returns, every bound variable, and every
faculty id its course requires, that faculty id resolves in the faculty map
and every period of the assigned block is in the faculty's availability list
for the assigned day. -/
theorem returned_solutions_availability
    (fd : FacultyMap) (cd : CourseMap) (courses : List Nat)
    (vars : List (Nat × Course × List Slot)) (sol : List (Nat × Slot))
    (hvars : add_variables cd courses = some vars)
    (hsol : sol ∈ getSolutions fd vars)
    (cid : Nat) (slot : Slot) (hmem : (cid, slot) ∈ sol)
    (c : Course) (hc : dictGet cd cid = some c)
    (fid : Nat) (hfid : fid ∈ c.required_faculty_ids)
    (p : Nat) (hp1 : slot.2.1 ≤ p) (hp2 : p ≤ slot.2.2) :
    (dictGet fd fid).map
      (fun fac => decide (p ∈ lookupD fac.available_slots slot.1 [])) = some true := by
  obtain ⟨a, haA, haOK, rfl⟩ := getSolutions_mem hsol
  rw [List.mem_map] at hmem
  obtain ⟨x, hxa, hxeq⟩ := hmem
  obtain ⟨hx1, hx2⟩ := Prod.mk.injEq .. ▸ hxeq
  obtain ⟨domx, hdomx, _⟩ := mem_allAssignments_mem haA hxa
  have hcx : dictGet cd x.1 = some x.2.1 := (add_variables_mem hvars hdomx).1
  rw [hx1, hc] at hcx
  have hxc : x.2.1 = c := (Option.some.injEq ..).mp hcx.symm
  have havail := assignment_ok_avail haOK hxa
  rw [hxc, hx2] at havail
  exact faculty_available_spec havail hfid hp1 hp2


/-- C7 (amended): given a complete Solution whose well-formed assigned slots
are pairwise separated, the materializer yields a grid in which every cell
covered by a bound variable holds that variable's label
`"<course code> | <faculty names joined by ' & '>"`, and every uncovered cell
holds the empty string.  (Without the separation premise a later entry's
write overwrites an earlier label; see the counterexample.) -/
theorem build_grid_cells (cd : CourseMap) (fd : FacultyMap)
    (sol : List (Nat × Slot)) (g : Grid)
    (hv : ∀ x ∈ sol, x.2.2.1 ≤ x.2.2.2)
    (hdisj : sol.Pairwise (fun x y => slotsApart x.2 y.2))
    (hb : build_timetable_dict sol cd fd = some g) :
    (∀ cid slot, (cid, slot) ∈ sol → ∀ p, slot.2.1 ≤ p → p ≤ slot.2.2 →
        some (g slot.1 p) = labelOf cd fd cid) ∧
    (∀ day p, (∀ x ∈ sol, ¬ covers x.2 day p) → g day p = "") := by
  constructor
  · intro cid slot hmem p hp1 hp2
    exact build_go_covered hb hv hdisj hmem hp1 hp2
  · intro day p hnc
    have hun := build_go_unchanged hb hv hnc
    rw [hun]
    rfl

/-- C7 (counterexample to the unconditional claim): for the complete solution
`solC7o`, whose two bound variables were assigned the same slot, the final
grid holds only the second course's label in the shared cell, so the first
bound variable's label is not present in every cell of its assigned range. -/
theorem build_grid_cells_counterexample :
    (build_timetable_dict solC7o cdC7o fdC7o).map (fun g => g ("Monday") 1) =
      some ("CB | Fb") ∧
    labelOf cdC7o fdC7o 1 = some ("CA | Fa") ∧
    ("CB | Fb" : String) ≠ "CA | Fa" := by
  refine ⟨rfl, rfl, ?_⟩
  decide

/-- C7 witness: the amended materializer theorem applied to the concrete
one-lab solution `solC7w`. -/
theorem build_grid_cells_witness :
    build_timetable_dict solC7w cdC7 fdC7 = some gC7 ∧
    some (gC7 ("Monday") 2) = labelOf cdC7 fdC7 1 ∧
    some (gC7 ("Monday") 3) = labelOf cdC7 fdC7 1 ∧
    gC7 ("Friday") 5 = "" := by
  have h := build_grid_cells cdC7 fdC7 solC7w gC7 (by decide) (by decide) rfl
  refine ⟨rfl, ?_, ?_, ?_⟩
  · exact h.1 1 (("Monday", 2, 3) : Slot) (by decide) 2 (by decide) (by decide)
  · exact h.1 1 (("Monday", 2, 3) : Slot) (by decide) 3 (by decide) (by decide)
  · exact h.2 ("Friday") 5 (by decide)

/-- C8: the list of courses for which scheduling variables are built is the
entire key list of the supplied course map, whatever the section name — the
comprehension's filter condition ends in `or True`. -/
theorem all_courses_scheduled (cd : CourseMap) (sec : String) :
    coursesToSchedule cd sec = cd.map (fun e => e.1) := by
  unfold coursesToSchedule
  congr 1
  simp

/-- C9: the output of `generate_timetable` is independent of the
`constraints_data` argument — the preferred-day predicates are recorded by
`add_preferred_days_constraint` but never consulted by the solve or
materialization steps. -/
theorem constraints_data_ignored (fd : FacultyMap) (cd : CourseMap)
    (p1 p2 : ConstraintsMap) (sec : String) :
    generate_timetable fd cd p1 sec = generate_timetable fd cd p2 sec := rfl

/-- C5: the engine is deterministic — identical faculty, course, and
preference input (including iteration order, which the association-list
representation fixes) yields the identical `(success, grid, message)`
output. -/
theorem generate_timetable_deterministic (fd1 fd2 : FacultyMap)
    (cd1 cd2 : CourseMap) (p1 p2 : ConstraintsMap) (s1 s2 : String)
    (hf : fd1 = fd2) (hc : cd1 = cd2) (hp : p1 = p2) (hs : s1 = s2) :
    generate_timetable fd1 cd1 p1 s1 = generate_timetable fd2 cd2 p2 s2 := by
  subst hf
  subst hc
  subst hp
  subst hs
  rfl

/-- C5 witness: determinism applied at a concrete schedulable input. -/
theorem generate_timetable_deterministic_witness :
    generate_timetable fdC5 cdC5 [] ("sec") = generate_timetable fdC5 cdC5 [] ("sec") :=
  generate_timetable_deterministic fdC5 fdC5 cdC5 cdC5 [] [] ("sec") ("sec")
    rfl rfl rfl rfl

/-- C1 (code behaviour at the failing input): the lab candidate domain
contains the break-straddling block (Monday, 2, 3); with both required
faculty available exactly at periods 2 and 3 of Monday, that block is the
engine's unique solution and `generate_timetable` returns it as a success,
writing the lab's label into periods 2 and 3 — contradicting the requirement
that a 2-period block starting at period 2 be excluded. -/
theorem lab_break_straddle_returned :
    (("Monday", 2, 3) : Slot) ∈ lab_domain ∧
    solveAll fdC1 cdC1 [1] = some [[(1, ("Monday", 2, 3))]] ∧
    (generate_timetable fdC1 cdC1 [] ("II Year IT A")).map
      (fun r => (r.1, (r.2.1).map (fun g => (g ("Monday") 2, g ("Monday") 3)), r.2.2)) =
      some (true, some ("IT301 | Dr. G & Ms. A", "IT301 | Dr. G & Ms. A"),
        "Timetable generated successfully!") := by
  refine ⟨by decide, by decide, ?_⟩
  rfl

/-- C2 (code behaviour at the failing input): a course referencing faculty
id 99, absent from the faculty map, is not rejected before search with a
structured error — the availability predicate just fails on every candidate
and the call reports the generic infeasibility outcome. -/
theorem unknown_faculty_reported_as_infeasible :
    generate_timetable fdC2 cdC2 [] ("sec") =
      some (false, none,
        "No feasible solution found. Check faculty availability and course requirements.") := rfl

/-- C6 (amended): when the candidate domains are exhausted without a
solution, `generate_timetable` returns normally with `(false, no grid,
message)` — it raises no exception — and the message is the fixed
no-feasible-solution text. -/
theorem search_exhaustion_returns_infeasible (fd : FacultyMap) (cd : CourseMap)
    (pd : ConstraintsMap) (sec : String)
    (hne : (coursesToSchedule cd sec).isEmpty = false)
    (hempty : solveAll fd cd (coursesToSchedule cd sec) = some []) :
    generate_timetable fd cd pd sec =
      some (false, none,
        "No feasible solution found. Check faculty availability and course requirements.") := by
  unfold solveAll at hempty
  rw [Option.map_eq_some'] at hempty
  obtain ⟨vars, hv, hg⟩ := hempty
  simp only [generate_timetable, hne, Bool.false_eq_true, if_false, hv]
  unfold solveCSP
  rw [hg]
  rfl

/-- C6 (counterexample to the distinguishing part): an invalid input (course
referencing the unknown faculty id 7) and a well-formed but infeasible input
produce the identical `(false, none, message)` triple — the failure message
does not distinguish invalid input from genuine infeasibility. -/
theorem invalid_input_not_distinguished :
    generate_timetable fdC6bad cdC6bad [] ("sec") =
      generate_timetable fdC6inf cdC6inf [] ("sec") ∧
    generate_timetable fdC6inf cdC6inf [] ("sec") =
      some (false, none,
        "No feasible solution found. Check faculty availability and course requirements.") :=
  ⟨rfl, rfl⟩

/-- C6 witness: the exhaustion theorem applied to the concrete infeasible
input `fdC6inf`/`cdC6inf`. -/
theorem search_exhaustion_returns_infeasible_witness :
    (coursesToSchedule cdC6inf ("sec")).isEmpty = false ∧
    solveAll fdC6inf cdC6inf (coursesToSchedule cdC6inf ("sec")) = some [] ∧
    generate_timetable fdC6inf cdC6inf [] ("sec") =
      some (false, none,
        "No feasible solution found. Check faculty availability and course requirements.") :=
  ⟨rfl, by decide,
    search_exhaustion_returns_infeasible fdC6inf cdC6inf [] ("sec") rfl (by decide)⟩

set_option maxRecDepth 8000 in
/-- C10: with two courses whose required-faculty sets are disjoint, no binary
constraint links them, the solver assigns both to the identical slot
(Monday, 1, 1), and the materializer's second write replaces the first: the
returned grid is a success in which every cell is empty or the second
course's label, so the first course's code appears in no cell. -/
theorem disjoint_faculty_overwrite :
    solveAll fdC10 cdC10 [1, 2] =
      some [[(1, ("Monday", 1, 1)), (2, ("Monday", 1, 1))]] ∧
    (generate_timetable fdC10 cdC10 [] ("sec")).map
      (fun r => (r.1, (r.2.1).map
        (fun g => (gridHasLabel g ("CSB | Fb"), gridHasLabel g ("CSA | Fa"),
          gridCellsAmong g ["", "CSB | Fb"])), r.2.2)) =
      some (true, some (true, false, true), "Timetable generated successfully!") := by
  constructor
  · decide
  · decide

/-- C3 witness: the no-clash theorem applied to the concrete shared-faculty
input `fdC3`/`cdC3` and solution `solC3`. -/
theorem returned_solutions_no_clash_witness :
    add_variables cdC3 [1, 2] = some varsC3 ∧
    solC3 ∈ getSolutions fdC3 varsC3 ∧
    (1, (("Monday", 1, 1) : Slot)) ∈ solC3 ∧
    (2, (("Monday", 3, 3) : Slot)) ∈ solC3 ∧
    ((("Monday", 1, 1) : Slot).1 ≠ (("Monday", 3, 3) : Slot).1 ∨
      (("Monday", 1, 1) : Slot).2.2 < (("Monday", 3, 3) : Slot).2.1 ∨
      (("Monday", 3, 3) : Slot).2.2 < (("Monday", 1, 1) : Slot).2.1) := by
  refine ⟨rfl, by decide, by decide, by decide, ?_⟩
  exact returned_solutions_no_clash fdC3 cdC3 [1, 2] varsC3 solC3 rfl (by decide)
    1 2 (("Monday", 1, 1) : Slot) (("Monday", 3, 3) : Slot) (by decide) (by decide)
    (by decide) crsC3a crsC3b rfl rfl 1 (by decide) (by decide)

/-- C4 witness: the availability theorem applied to the concrete input
`fdC4`/`cdC4` and its unique solution `solC4`. -/
theorem returned_solutions_availability_witness :
    add_variables cdC4 [1] = some varsC4 ∧
    solC4 ∈ getSolutions fdC4 varsC4 ∧
    (dictGet fdC4 1).map
      (fun fac => decide ((4 : Nat) ∈
        lookupD fac.available_slots ((("Monday", 4, 4) : Slot)).1 [])) = some true := by
  refine ⟨rfl, by decide, ?_⟩
  exact returned_solutions_availability fdC4 cdC4 [1] varsC4 solC4 rfl (by decide)
    1 (("Monday", 4, 4) : Slot) (by decide) crsC4 rfl 1 (by decide)
    4 (by decide) (by decide)
